import Mathlib

/-!
Shallow embedding of the minimal tabular batch-processing pipeline
abstraction described by the specification of the pyspark-overview
walkthrough.  The repository itself only issues calls against an external
DataFrame engine, so the data model (Table, Op, Pipeline, Evaluator,
Writer) is modelled from the spec's design sections and from the
walkthrough's documented call semantics.
-/

namespace PipelineSpec

/-- Modelled from the spec: a cell value of a Table.  The source delegates
values to the external engine; the spec needs absent values (null) and
numeric and textual data, so numerics are modelled exactly as rationals. -/
inductive Value where
  | null
  | num (q : ℚ)
  | str (s : String)
deriving DecidableEq

/-- Modelled from the spec: a row is the ordered list of cell values,
positionally aligned with the Table's schema. -/
abbrev Row := List Value

/-- Modelled from the spec: a Table pairs a Schema (ordered column names)
with its rows; it is immutable, every transformation builds a new Table. -/
structure Table where
  schema : List String
  rows : List Row
deriving DecidableEq

/-- Index of a column name in a schema (first occurrence). -/
def colIdx (c : String) : List String → Option Nat
  | [] => none
  | s :: rest => if s = c then some 0 else (colIdx c rest).map (· + 1)

/-- Value of column `c` in row `r` under schema `schema`; `none` when the
column does not resolve. -/
def getValue (schema : List String) (r : Row) (c : String) : Option Value :=
  (colIdx c schema).bind (fun i => r[i]?)

/-- Well-formedness: each row has exactly one cell per schema column. -/
def Wf (T : Table) : Prop :=
  ∀ r ∈ T.rows, r.length = T.schema.length

instance (T : Table) : Decidable (Wf T) := by
  unfold Wf; infer_instance

/-- Comparison operators usable in filter predicates. -/
inductive Cmp where
  | lt | le | gt | ge | eq | ne
deriving DecidableEq

/-- Three-valued comparison of two cell values, as in the engine's SQL
semantics: comparing with an absent value is unknown (`none`), as is
comparing values of incompatible kinds. -/
def cmpValue (k : Cmp) : Value → Value → Option Bool
  | Value.num a, Value.num b =>
      some (match k with
        | Cmp.lt => decide (a < b)
        | Cmp.le => decide (a ≤ b)
        | Cmp.gt => decide (b < a)
        | Cmp.ge => decide (b ≤ a)
        | Cmp.eq => decide (a = b)
        | Cmp.ne => decide (a ≠ b))
  | Value.str a, Value.str b =>
      match k with
      | Cmp.eq => some (decide (a = b))
      | Cmp.ne => some (decide (a ≠ b))
      | _ => none
  | _, _ => none

/-- Modelled from the spec: filter predicates built from column/literal
comparisons with AND/OR combinators, plus the null tests and membership
test used by the walkthrough. -/
inductive Cond where
  | cmp (c : String) (k : Cmp) (v : Value)
  | and (a b : Cond)
  | or (a b : Cond)
  | isNull (c : String)
  | isNotNull (c : String)
  | isin (c : String) (vs : List Value)
deriving DecidableEq

/-- Kleene three-valued evaluation of a predicate over one row. -/
def evalCond (schema : List String) (r : Row) : Cond → Option Bool
  | Cond.cmp c k v =>
      (getValue schema r c).bind (fun a => cmpValue k a v)
  | Cond.and a b =>
      match evalCond schema r a, evalCond schema r b with
      | some false, _ => some false
      | _, some false => some false
      | some true, some true => some true
      | _, _ => none
  | Cond.or a b =>
      match evalCond schema r a, evalCond schema r b with
      | some true, _ => some true
      | _, some true => some true
      | some false, some false => some false
      | _, _ => none
  | Cond.isNull c => some (decide (getValue schema r c = some Value.null))
  | Cond.isNotNull c => some (!decide (getValue schema r c = some Value.null))
  | Cond.isin c vs =>
      match getValue schema r c with
      | some Value.null => none
      | some a => some (decide (a ∈ vs))
      | none => none

/-- Modelled from the spec: column expressions for derived columns —
column references, literals, the walkthrough's division, and the
when/otherwise conditional. -/
inductive ColExpr where
  | col (c : String)
  | lit (v : Value)
  | div (a b : ColExpr)
  | caseWhen (cond : Cond) (t e : ColExpr)
deriving DecidableEq

/-- Evaluate a column expression on one row.  Division propagates null:
an absent or non-numeric operand yields null.  A when/otherwise takes the
then-branch exactly when the condition is satisfied (three-valued true);
false and unknown both fall to the otherwise-branch. -/
def evalColExpr (schema : List String) (r : Row) : ColExpr → Value
  | ColExpr.col c => (getValue schema r c).getD Value.null
  | ColExpr.lit v => v
  | ColExpr.div a b =>
      match evalColExpr schema r a, evalColExpr schema r b with
      | Value.num x, Value.num y => Value.num (x / y)
      | _, _ => Value.null
  | ColExpr.caseWhen cond t e =>
      if evalCond schema r cond = some true then evalColExpr schema r t
      else evalColExpr schema r e

/-- Select: project onto the named columns, in the order given. -/
def selectCols (cs : List String) (T : Table) : Table :=
  ⟨cs, T.rows.map (fun r => cs.map (fun c => (getValue T.schema r c).getD Value.null))⟩

/-- Drop: remove the named columns from schema and rows. -/
def dropCols (cs : List String) (T : Table) : Table :=
  ⟨T.schema.filter (fun s => !decide (s ∈ cs)),
   T.rows.map (fun r =>
     (T.schema.zip r).filterMap
       (fun p => if p.1 ∈ cs then none else some p.2))⟩

/-- Rename a column: the schema entry is renamed, the rows are untouched. -/
def withColumnRenamed (o n : String) (T : Table) : Table :=
  ⟨T.schema.map (fun s => if s = o then n else s), T.rows⟩

/-- Filter: keep the rows on which the predicate is three-valued true. -/
def filterTable (cond : Cond) (T : Table) : Table :=
  ⟨T.schema, T.rows.filter (fun r => decide (evalCond T.schema r cond = some true))⟩

/-- Derive a column: overwrite it in place when the name already exists,
otherwise append it at the end of the schema. -/
def withColumn (c : String) (e : ColExpr) (T : Table) : Table :=
  if c ∈ T.schema then
    ⟨T.schema,
     T.rows.map (fun r =>
       (T.schema.zip r).map
         (fun p => if p.1 = c then evalColExpr T.schema r e else p.2))⟩
  else
    ⟨T.schema ++ [c], T.rows.map (fun r => r ++ [evalColExpr T.schema r e])⟩

/-- Null-dropping: keep only the rows holding no null in any subset column. -/
def naDrop (subset : List String) (T : Table) : Table :=
  ⟨T.schema,
   T.rows.filter (fun r =>
     subset.all (fun c => !decide (getValue T.schema r c = some Value.null)))⟩

/-- Distinct: deduplicate the rows. -/
def distinctTable (T : Table) : Table :=
  ⟨T.schema, T.rows.dedup⟩

/-- Limit: keep at most the first `n` rows. -/
def limitTable (n : Nat) (T : Table) : Table :=
  ⟨T.schema, T.rows.take n⟩

/-- Count: the materialized row count of a Table. -/
def countTable (T : Table) : Nat :=
  T.rows.length

/-- Insert into a list sorted by the boolean relation `le`. -/
def insertBy (le : Row → Row → Bool) (a : Row) : List Row → List Row
  | [] => [a]
  | b :: l => if le a b then a :: b :: l else b :: insertBy le a l

/-- Insertion sort by the boolean relation `le`. -/
def sortRowsBy (le : Row → Row → Bool) : List Row → List Row
  | [] => []
  | a :: l => insertBy le a (sortRowsBy le l)

/-- Lexicographic order on character lists by code point. -/
def charListLe : List Char → List Char → Bool
  | [], _ => true
  | _ :: _, [] => false
  | a :: as, b :: bs =>
      if a.toNat < b.toNat then true
      else if b.toNat < a.toNat then false
      else charListLe as bs

/-- Total order used for sorting cell values: nulls first, then numbers,
then text. -/
def valLe : Value → Value → Bool
  | Value.null, _ => true
  | _, Value.null => false
  | Value.num a, Value.num b => decide (a ≤ b)
  | Value.num _, Value.str _ => true
  | Value.str _, Value.num _ => false
  | Value.str a, Value.str b => charListLe a.data b.data

/-- Sort the rows on one column, ascending or descending. -/
def sortTable (c : String) (asc : Bool) (T : Table) : Table :=
  ⟨T.schema,
   sortRowsBy
     (fun r1 r2 =>
       let a := (getValue T.schema r1 c).getD Value.null
       let b := (getValue T.schema r2 c).getD Value.null
       if asc then valLe a b else valLe b a)
     T.rows⟩

/-- Numeric content of a cell, when present. -/
def numOf : Option Value → Option ℚ
  | some (Value.num q) => some q
  | _ => none

/-- Documented aggregation policy for mean: absent and non-numeric values
are excluded; a group with no numeric value aggregates to null, otherwise
to the arithmetic mean of exactly the numeric values. -/
def meanAgg (ns : List ℚ) : Value :=
  if ns.isEmpty then Value.null else Value.num (ns.sum / ns.length)

/-- Numeric values of column `c` among the rows of `T` whose group column
`g` holds key `k`. -/
def groupVals (T : Table) (g c : String) (k : Option Value) : List ℚ :=
  ((T.rows.filter (fun r => decide (getValue T.schema r g = k))).map
     (fun r => getValue T.schema r c)).filterMap numOf

/-- Key column of every row of `T`, in row order. -/
def keysList (T : Table) (c : String) : List (Option Value) :=
  T.rows.map (fun r => getValue T.schema r c)

/-- Count of distinct values in column `c` of `T`. -/
def distinctCount (T : Table) (c : String) : Nat :=
  (keysList T c).dedup.length

/-- Group by `g` and aggregate the mean of `c`: one output row per
distinct key, holding the key and the mean of the group's numeric values. -/
def groupAggMean (T : Table) (g c : String) : Table :=
  ⟨[g, "avg(" ++ c ++ ")"],
   (keysList T g).dedup.map
     (fun k => [k.getD Value.null, meanAgg (groupVals T g c k)])⟩

/-- Equality of join keys: absent values and nulls match nothing, and
values of different kinds never match. -/
def keyMatch : Option Value → Option Value → Bool
  | some (Value.num a), some (Value.num b) => decide (a = b)
  | some (Value.str a), some (Value.str b) => decide (a = b)
  | _, _ => false

/-- Left join on `L.lk = R.rk`: every left row is kept; a left row with no
matching right row is padded with nulls for the right columns. -/
def joinLeft (L R : Table) (lk rk : String) : Table :=
  ⟨L.schema ++ R.schema,
   L.rows.flatMap (fun lr =>
     let ms := R.rows.filter
       (fun rr => keyMatch (getValue L.schema lr lk) (getValue R.schema rr rk))
     if ms.isEmpty then [lr ++ List.replicate R.schema.length Value.null]
     else ms.map (fun rr => lr ++ rr))⟩

/-- Worst-case join fan-out: the greatest number of right rows matched by
one left row, floored at one. -/
def fanOut (L R : Table) (lk rk : String) : Nat :=
  (L.rows.map (fun lr =>
     (R.rows.filter
       (fun rr => keyMatch (getValue L.schema lr lk) (getValue R.schema rr rk))).length)).foldr
    max 1

/-- Split a character list on spaces, accumulating the current word. -/
def wordsAux : List Char → List Char → List (List Char)
  | [], acc => if acc.isEmpty then [] else [acc.reverse]
  | ch :: cs, acc =>
      if ch.toNat = 32 then
        if acc.isEmpty then wordsAux cs [] else acc.reverse :: wordsAux cs []
      else wordsAux cs (ch :: acc)

/-- Whitespace-separated words of a string. -/
def words (s : String) : List String :=
  (wordsAux s.data []).map (fun l => String.mk l)

/-- Comparison token of the SQL-string form. -/
def cmpOfTok (t : String) : Option Cmp :=
  if t = "<" then some Cmp.lt
  else if t = "<=" then some Cmp.le
  else if t = ">" then some Cmp.gt
  else if t = ">=" then some Cmp.ge
  else if t = "=" then some Cmp.eq
  else if t = "==" then some Cmp.eq
  else if t = "!=" then some Cmp.ne
  else none

/-- Decimal value of a digit character, when it is one. -/
def digitVal (ch : Char) : Option Nat :=
  if 48 ≤ ch.toNat ∧ ch.toNat ≤ 57 then some (ch.toNat - 48) else none

/-- Natural number denoted by a non-empty digit string. -/
def natOfDigits : List Char → Option Nat
  | [] => none
  | ds => ds.foldl
      (fun acc ch => acc.bind (fun n => (digitVal ch).map (fun d => 10 * n + d)))
      (some 0)

/-- Literal token of the SQL-string form: a digit string denotes a number,
anything else denotes text. -/
def litOfTok (t : String) : Value :=
  match natOfDigits t.data with
  | some n => Value.num (n : ℚ)
  | none => Value.str t

/-- Modelled from the spec: the named-SQL-string form of a filter, parsed
into its column, comparison and literal (the walkthrough's
`'CalYear > 2012'` phrasing).  The source delegates the parse to the
external engine. -/
def parseCond (s : String) : Option (String × Cmp × Value) :=
  match words s with
  | [c, o, v] => (cmpOfTok o).map (fun k => (c, k, litOfTok v))
  | _ => none

/-- Evaluation of the SQL-string form directly from its parsed parts,
the second of the two equivalent phrasings of a filter. -/
def sqlRowKeep (schema : List String) (r : Row) (c : String) (k : Cmp) (v : Value) : Bool :=
  match getValue schema r c with
  | none => false
  | some a =>
      match cmpValue k a v with
      | some b => b
      | none => false

/-- Filter a table with the SQL-string form of a predicate; a string that
does not parse keeps the table unchanged. -/
def filterWithString (T : Table) (s : String) : Table :=
  match parseCond s with
  | some (c, k, v) => ⟨T.schema, T.rows.filter (fun r => sqlRowKeep T.schema r c k v)⟩
  | none => T

/-- Modelled from the spec: the tagged Op variants of the Transformation
Builder — select, drop, rename, filter (both phrasings), derive-column,
null-dropping, distinct, group-and-aggregate, join, sort, limit — plus the
materializing write.  The source only calls the external engine's
counterparts of these. -/
inductive Op where
  | select (cs : List String)
  | dropC (cs : List String)
  | rename (o n : String)
  | filter (cond : Cond)
  | filterStr (s : String)
  | derive (c : String) (e : ColExpr)
  | dropNa (subset : List String)
  | distinct
  | groupMean (g c : String)
  | joinWith (other : Table) (lk rk : String)
  | sortOn (c : String) (asc : Bool)
  | limit (n : Nat)
  | write (dest : String)
deriving DecidableEq

/-- Compile the expression form of a filter to its internal Op. -/
def exprFilterOp (cond : Cond) : Op :=
  Op.filter cond

/-- Compile the SQL-string form of a filter to its internal Op. -/
def strFilterOp (s : String) : Option Op :=
  (parseCond s).map (fun p => Op.filter (Cond.cmp p.1 p.2.1 p.2.2))

/-- Table-to-table semantics of one Op; `write` leaves the table as is. -/
def applyOp : Op → Table → Table
  | Op.select cs, T => selectCols cs T
  | Op.dropC cs, T => dropCols cs T
  | Op.rename o n, T => withColumnRenamed o n T
  | Op.filter cond, T => filterTable cond T
  | Op.filterStr s, T => filterWithString T s
  | Op.derive c e, T => withColumn c e T
  | Op.dropNa subset, T => naDrop subset T
  | Op.distinct, T => distinctTable T
  | Op.groupMean g c, T => groupAggMean T g c
  | Op.joinWith other lk rk, T => joinLeft T other lk rk
  | Op.sortOn c asc, T => sortTable c asc T
  | Op.limit n, T => limitTable n T
  | Op.write _, T => T

/-- Modelled from the spec: the Writer's backing store, a map from
destination identifiers to the data they hold. -/
abbrev Store := List (String × Table)

/-- Read-only Ops are every Op except a write. -/
def isReadOnly : Op → Bool
  | Op.write _ => false
  | _ => true

/-- One Evaluator step: read-only Ops transform the working table and
leave the store alone; a write records the working table at its
destination. -/
def evalStep (op : Op) (cur : Table) (st : Store) : Table × Store :=
  match op with
  | Op.write d => (cur, (d, cur) :: st)
  | _ => (applyOp op cur, st)

/-- Modelled from the spec: the Evaluator runs a Pipeline (ordered Op
list) over a source Table, threading the Writer's store through the steps. -/
def runOps : List Op → Table → Store → Table × Store
  | [], cur, st => (cur, st)
  | op :: ops, cur, st =>
      let s := evalStep op cur st
      runOps ops s.1 s.2

/-- Materialized result of a Table: its rows and its row count. -/
def matRes (T : Table) : List Row × Nat :=
  (T.rows, countTable T)

/-- Modelled from the spec: error kinds surfaced by the Writer and
Evaluator. -/
inductive ErrKind where
  | targetExists
  | sourceNotFound
deriving DecidableEq

/-- Modelled from the spec: the Writer — it fails with TargetExists, and
stores nothing, when the destination already holds data and overwrite was
not requested; otherwise it records the table at the destination. -/
def writeTable (st : Store) (dest : String) (T : Table) (overwrite : Bool) :
    Except ErrKind Unit × Store :=
  if (st.lookup dest).isSome ∧ overwrite = false then
    (Except.error ErrKind.targetExists, st)
  else
    (Except.ok (), (dest, T) :: st)

/-- Modelled from the spec: applying an Op under a name binds the new
Table to a new name and never touches the existing bindings. -/
def applyNamed (env : List (String × Table)) (src dst : String) (op : Op) :
    List (String × Table) :=
  match env.lookup src with
  | some t => (dst, applyOp op t) :: env
  | none => env

/-- Derived-column expression of the walkthrough: incident duration as
JobHours over EngineCount. -/
def durExpr : ColExpr :=
  ColExpr.div (ColExpr.col "JobHours") (ColExpr.col "EngineCount")

/-- Derived-column expression of the walkthrough: the snake indicator,
when AnimalGroup equals Snake then 1 otherwise 0. -/
def snakeExpr : ColExpr :=
  ColExpr.caseWhen (Cond.cmp "AnimalGroup" Cmp.eq (Value.str "Snake"))
    (ColExpr.lit (Value.num 1)) (ColExpr.lit (Value.num 0))

/-- Small concrete rescue-like table without a duration column. -/
def rescueT0 : Table :=
  ⟨["IncidentNumber", "CalYear", "AnimalGroup", "JobHours", "EngineCount", "TotalCost"],
   [[Value.num 1, Value.num 2013, Value.str "Snake", Value.num 2, Value.num 1, Value.num 260],
    [Value.num 2, Value.num 2011, Value.str "Cat", Value.null, Value.num 1, Value.null],
    [Value.num 3, Value.num 2015, Value.null, Value.num 4, Value.null, Value.num 520]]⟩

/-- Small concrete rescue-like table with a duration column holding nulls. -/
def rescueT : Table :=
  ⟨["IncidentNumber", "CalYear", "AnimalGroup", "JobHours", "EngineCount", "TotalCost",
    "IncidentDuration"],
   [[Value.num 1, Value.num 2013, Value.str "Snake", Value.num 2, Value.num 1, Value.num 260,
     Value.num 2],
    [Value.num 2, Value.num 2011, Value.str "Cat", Value.null, Value.num 1, Value.null,
     Value.null],
    [Value.num 3, Value.num 2015, Value.null, Value.num 4, Value.null, Value.num 520,
     Value.null]]⟩

/-- Concrete two-row table of the spec's aggregation example. -/
def groupEx : Table :=
  ⟨["id", "cost", "group"],
   [[Value.num 1, Value.num 10, Value.str "Horse"],
    [Value.num 2, Value.null, Value.str "Goat"]]⟩

/-- Concrete read-only pipeline: filter, select, distinct, limit. -/
def pipeEx : List Op :=
  [Op.filterStr "CalYear > 2012", Op.select ["IncidentNumber", "AnimalGroup"],
   Op.distinct, Op.limit 5]

/-- Concrete left side of a join, two distinct keys. -/
def joinL : Table :=
  ⟨["k"], [[Value.num 1], [Value.num 2]]⟩

/-- Concrete right side of a join, one key. -/
def joinR : Table :=
  ⟨["k2"], [[Value.num 1]]⟩

/-- Concrete environment binding one source table. -/
def envEx : List (String × Table) :=
  [("rescue", rescueT0)]

/-- Concrete Writer store with one destination already holding data. -/
def storeEx : Store :=
  [("rescue_with_pop.parquet", rescueT0)]

/-! Helper lemmas about column resolution. -/

theorem colIdx_lt {c : String} : ∀ {l : List String} {i : Nat},
    colIdx c l = some i → i < l.length := by
  intro l
  induction l with
  | nil => intro i h; simp [colIdx] at h
  | cons s rest ih =>
    intro i h
    by_cases hs : s = c
    · simp [colIdx, hs] at h
      simp only [List.length_cons]
      omega
    · simp [colIdx, hs] at h
      obtain ⟨j, hj, hji⟩ := h
      have := ih hj
      simp only [List.length_cons]
      omega

theorem colIdx_append_left {c : String} : ∀ {l₁ : List String} {i : Nat}
    (l₂ : List String), colIdx c l₁ = some i → colIdx c (l₁ ++ l₂) = some i := by
  intro l₁
  induction l₁ with
  | nil => intro i l₂ h; simp [colIdx] at h
  | cons s rest ih =>
    intro i l₂ h
    by_cases hs : s = c
    · simp [colIdx, hs] at h ⊢
      exact h
    · simp [colIdx, hs] at h ⊢
      obtain ⟨j, hj, hji⟩ := h
      exact ⟨j, ih l₂ hj, hji⟩

theorem colIdx_isSome_of_mem {c : String} : ∀ {l : List String},
    c ∈ l → ∃ i, colIdx c l = some i := by
  intro l
  induction l with
  | nil => intro h; simp at h
  | cons s rest ih =>
    intro h
    by_cases hs : s = c
    · exact ⟨0, by simp [colIdx, hs]⟩
    · have hm : c ∈ rest := by
        rcases List.mem_cons.mp h with h1 | h2
        · exact absurd h1.symm hs
        · exact h2
      obtain ⟨i, hi⟩ := ih hm
      exact ⟨i + 1, by simp [colIdx, hs, hi]⟩

theorem colIdx_rename {o n : String} : ∀ {l : List String}, n ∉ l →
    colIdx n (l.map (fun s => if s = o then n else s)) = colIdx o l := by
  intro l
  induction l with
  | nil => intro _; simp [colIdx]
  | cons s rest ih =>
    intro hn
    have hns : n ≠ s := fun he => hn (by simp [he])
    have hrest : n ∉ rest := fun hm => hn (by simp [hm])
    by_cases hs : s = o
    · simp [colIdx, hs, List.map_cons]
    · have h2 : s ≠ n := fun he => hns he.symm
      simp [colIdx, hs, List.map_cons, h2, ih hrest]

theorem colIdx_append_fresh {c : String} : ∀ {l : List String}, c ∉ l →
    colIdx c (l ++ [c]) = some l.length := by
  intro l
  induction l with
  | nil => intro _; simp [colIdx]
  | cons s rest ih =>
    intro hc
    have hs : s ≠ c := fun he => hc (by simp [he])
    have hrest : c ∉ rest := fun hm => hc (by simp [hm])
    simp [colIdx, hs, ih hrest]

theorem getValue_append_of_mem {c : String} {l₁ l₂ : List String} {r t : Row}
    (hmem : c ∈ l₁) (hlen : r.length = l₁.length) :
    getValue (l₁ ++ l₂) (r ++ t) c = getValue l₁ r c := by
  obtain ⟨i, hi⟩ := colIdx_isSome_of_mem hmem
  have hilt : i < r.length := by
    have := colIdx_lt hi
    omega
  unfold getValue
  rw [hi, colIdx_append_left l₂ hi]
  simp [List.getElem?_append_left hilt]

theorem getValue_snoc_fresh {c : String} {l : List String} {r : Row} {v : Value}
    (hfresh : c ∉ l) (hlen : r.length = l.length) :
    getValue (l ++ [c]) (r ++ [v]) c = some v := by
  unfold getValue
  rw [colIdx_append_fresh hfresh]
  simp [← hlen, List.getElem?_concat_length]

theorem dedup_length_le_of_subset {α : Type} [DecidableEq α] {l₁ l₂ : List α}
    (h : ∀ x ∈ l₁, x ∈ l₂) : l₁.dedup.length ≤ l₂.dedup.length := by
  rw [← List.card_toFinset, ← List.card_toFinset]
  apply Finset.card_le_card
  intro x hx
  rw [List.mem_toFinset] at hx ⊢
  exact h x hx

theorem evalStep_readonly {op : Op} (h : isReadOnly op = true) (cur : Table) (st : Store) :
    evalStep op cur st = (applyOp op cur, st) := by
  cases op <;> first
    | rfl
    | simp [isReadOnly] at h

theorem runOps_state : ∀ (P : List Op) (T : Table) (st : Store),
    (∀ op ∈ P, isReadOnly op = true) → (runOps P T st).2 = st := by
  intro P
  induction P with
  | nil => intro T st _; rfl
  | cons op ops ih =>
    intro T st h
    have hop := h op (List.mem_cons_self op ops)
    have hops : ∀ o ∈ ops, isReadOnly o = true := fun o ho => h o (List.mem_cons_of_mem _ ho)
    show (runOps (op :: ops) T st).2 = st
    simp only [runOps]
    rw [evalStep_readonly hop]
    exact ih _ _ hops

/-- C1: evaluating a pipeline of read-only operations against a table
leaves the evaluation state unchanged, so a second evaluation of the same
pipeline against the same table, run from the state the first evaluation
left behind, materializes the identical result: the same rows and the same
count. -/
theorem spec_c1 (P : List Op) (T : Table) (st : Store)
    (h : ∀ op ∈ P, isReadOnly op = true) :
    (runOps P T st).2 = st ∧
    matRes (runOps P T (runOps P T st).2).1 = matRes (runOps P T st).1 := by
  have e := runOps_state P T st h
  exact ⟨e, by rw [e]⟩

theorem spec_c1_witness :
    (∀ op ∈ pipeEx, isReadOnly op = true) ∧
    ((runOps pipeEx rescueT0 []).2 = [] ∧
     matRes (runOps pipeEx rescueT0 (runOps pipeEx rescueT0 []).2).1 =
       matRes (runOps pipeEx rescueT0 []).1) :=
  ⟨by decide, spec_c1 pipeEx rescueT0 [] (by decide)⟩

theorem sqlRowKeep_eq (schema : List String) (r : Row) (c : String) (k : Cmp) (v : Value) :
    sqlRowKeep schema r c k v = decide (evalCond schema r (Cond.cmp c k v) = some true) := by
  unfold sqlRowKeep evalCond
  cases hg : getValue schema r c with
  | none => simp
  | some a =>
    cases hc : cmpValue k a v with
    | none => simp [hc]
    | some b => cases b <;> simp [hc]

/-- C2: a filter given in the SQL-string form parses to the identical
internal Op as the same filter given in the expression form, and filtering
a table through the string path produces the identical output table as
filtering it through the expression path. -/
theorem spec_c2 (T : Table) (s : String) (c : String) (k : Cmp) (v : Value)
    (h : parseCond s = some (c, k, v)) :
    strFilterOp s = some (exprFilterOp (Cond.cmp c k v)) ∧
    filterWithString T s = filterTable (Cond.cmp c k v) T := by
  constructor
  · unfold strFilterOp exprFilterOp
    rw [h]
    rfl
  · unfold filterWithString
    rw [h]
    dsimp only
    unfold filterTable
    congr 1
    apply List.filter_congr
    intro r _
    exact sqlRowKeep_eq T.schema r c k v

theorem spec_c2_witness :
    parseCond "CalYear > 2012" = some ("CalYear", Cmp.gt, Value.num 2012) ∧
    (strFilterOp "CalYear > 2012" =
       some (exprFilterOp (Cond.cmp "CalYear" Cmp.gt (Value.num 2012))) ∧
     filterWithString rescueT0 "CalYear > 2012" =
       filterTable (Cond.cmp "CalYear" Cmp.gt (Value.num 2012)) rescueT0) :=
  ⟨by decide, spec_c2 rescueT0 "CalYear > 2012" "CalYear" Cmp.gt (Value.num 2012) (by decide)⟩

/-- C3: dropping the rows holding a null in column A or column B never
increases the row count, and every row of the result is null-free in A and
in B. -/
theorem spec_c3 (T : Table) (A B : String) (hA : A ∈ T.schema) (hB : B ∈ T.schema) :
    countTable (naDrop [A, B] T) ≤ countTable T ∧
    ∀ r ∈ (naDrop [A, B] T).rows,
      getValue T.schema r A ≠ some Value.null ∧
      getValue T.schema r B ≠ some Value.null := by
  constructor
  · simp only [countTable, naDrop]
    exact List.length_filter_le _ _
  · intro r hr
    simp only [naDrop, List.mem_filter] at hr
    obtain ⟨-, hall⟩ := hr
    simp only [List.all_cons, List.all_nil, Bool.and_true, Bool.and_eq_true,
      Bool.not_eq_true', decide_eq_false_iff_not] at hall
    exact hall

theorem spec_c3_witness :
    ("TotalCost" ∈ rescueT.schema ∧ "IncidentDuration" ∈ rescueT.schema) ∧
    (countTable (naDrop ["TotalCost", "IncidentDuration"] rescueT) ≤ countTable rescueT ∧
     ∀ r ∈ (naDrop ["TotalCost", "IncidentDuration"] rescueT).rows,
       getValue rescueT.schema r "TotalCost" ≠ some Value.null ∧
       getValue rescueT.schema r "IncidentDuration" ≠ some Value.null) :=
  ⟨⟨by decide, by decide⟩, spec_c3 rescueT "TotalCost" "IncidentDuration" (by decide) (by decide)⟩

/-- C4: renaming a column to a fresh name and then selecting it by the new
name yields exactly the rows that selecting it by the old name yields on
the original table. -/
theorem spec_c4 (T : Table) (o n : String) (hn : n ∉ T.schema) :
    (selectCols [n] (withColumnRenamed o n T)).rows = (selectCols [o] T).rows := by
  unfold selectCols withColumnRenamed
  apply List.map_congr_left
  intro r _
  simp only [List.map_cons, List.map_nil]
  have : getValue (T.schema.map (fun s => if s = o then n else s)) r n = getValue T.schema r o := by
    unfold getValue
    rw [colIdx_rename hn]
  rw [this]

theorem spec_c4_witness :
    ("JobHrs" ∉ rescueT0.schema) ∧
    (selectCols ["JobHrs"] (withColumnRenamed "JobHours" "JobHrs" rescueT0)).rows =
      (selectCols ["JobHours"] rescueT0).rows :=
  ⟨by decide, spec_c4 rescueT0 "JobHours" "JobHrs" (by decide)⟩

/-- C5: applying an operation to a table bound in the environment binds the
result under the new name and leaves the original binding — its schema and
its rows — untouched, so the original table may still be used afterwards. -/
theorem spec_c5 (env : List (String × Table)) (src dst : String) (op : Op) (T : Table)
    (hne : dst ≠ src) (hT : env.lookup src = some T) :
    (applyNamed env src dst op).lookup src = some T ∧
    (applyNamed env src dst op).lookup dst = some (applyOp op T) := by
  unfold applyNamed
  rw [hT]
  have h1 : (src == dst) = false := beq_eq_false_iff_ne.mpr (Ne.symm hne)
  constructor
  · simp [List.lookup, h1, hT]
  · simp [List.lookup]

theorem spec_c5_witness :
    ("recent_rescue" ≠ "rescue" ∧ envEx.lookup "rescue" = some rescueT0) ∧
    ((applyNamed envEx "rescue" "recent_rescue"
        (Op.filter (Cond.cmp "CalYear" Cmp.gt (Value.num 2012)))).lookup "rescue" =
       some rescueT0 ∧
     (applyNamed envEx "rescue" "recent_rescue"
        (Op.filter (Cond.cmp "CalYear" Cmp.gt (Value.num 2012)))).lookup "recent_rescue" =
       some (applyOp (Op.filter (Cond.cmp "CalYear" Cmp.gt (Value.num 2012))) rescueT0)) :=
  ⟨⟨by decide, by decide⟩,
   spec_c5 envEx "rescue" "recent_rescue"
     (Op.filter (Cond.cmp "CalYear" Cmp.gt (Value.num 2012))) rescueT0
     (by decide) (by decide)⟩

/-- C6: grouped mean aggregation follows one documented policy — absent
values are excluded from the mean: every output row carries, for its key,
either null (exactly when the group holds no numeric value) or the
arithmetic mean of exactly the group's numeric values; no other kind of
result can appear. -/
theorem spec_c6 (T : Table) (g c : String) (row : Row)
    (h : row ∈ (groupAggMean T g c).rows) :
    ∃ k, k ∈ (keysList T g).dedup ∧
      row = [k.getD Value.null, meanAgg (groupVals T g c k)] ∧
      ((groupVals T g c k = [] ∧ meanAgg (groupVals T g c k) = Value.null) ∨
       (groupVals T g c k ≠ [] ∧
        meanAgg (groupVals T g c k) =
          Value.num ((groupVals T g c k).sum / ((groupVals T g c k).length : ℚ)))) := by
  simp only [groupAggMean, List.mem_map] at h
  obtain ⟨k, hk, heq⟩ := h
  refine ⟨k, hk, heq.symm, ?_⟩
  cases hgv : groupVals T g c k with
  | nil =>
    left
    exact ⟨rfl, by simp [meanAgg]⟩
  | cons q qs =>
    right
    refine ⟨by simp, ?_⟩
    simp [meanAgg]

theorem spec_c6_witness :
    ([Value.str "Horse", Value.num 10] ∈ (groupAggMean groupEx "group" "cost").rows) ∧
    (∃ k, k ∈ (keysList groupEx "group").dedup ∧
      [Value.str "Horse", Value.num 10] =
        [k.getD Value.null, meanAgg (groupVals groupEx "group" "cost" k)] ∧
      ((groupVals groupEx "group" "cost" k = [] ∧
        meanAgg (groupVals groupEx "group" "cost" k) = Value.null) ∨
       (groupVals groupEx "group" "cost" k ≠ [] ∧
        meanAgg (groupVals groupEx "group" "cost" k) =
          Value.num ((groupVals groupEx "group" "cost" k).sum /
            ((groupVals groupEx "group" "cost" k).length : ℚ))))) :=
  ⟨by with_unfolding_all decide,
   spec_c6 groupEx "group" "cost" [Value.str "Horse", Value.num 10]
     (by with_unfolding_all decide)⟩

/-- C7: writing to a destination that already holds data, with overwrite
not requested, fails with the TargetExists error and stores nothing: the
store is returned unchanged and the destination still holds its old data. -/
theorem spec_c7 (st : Store) (dest : String) (T D : Table) (ov : Bool)
    (hD : st.lookup dest = some D) (hov : ov = false) :
    writeTable st dest T ov = (Except.error ErrKind.targetExists, st) ∧
    (writeTable st dest T ov).2.lookup dest = some D := by
  subst hov
  unfold writeTable
  rw [if_pos ⟨by rw [hD]; rfl, rfl⟩]
  exact ⟨rfl, hD⟩

theorem spec_c7_witness :
    (storeEx.lookup "rescue_with_pop.parquet" = some rescueT0 ∧ false = false) ∧
    (writeTable storeEx "rescue_with_pop.parquet" rescueT false =
       (Except.error ErrKind.targetExists, storeEx) ∧
     (writeTable storeEx "rescue_with_pop.parquet" rescueT false).2.lookup
        "rescue_with_pop.parquet" = some rescueT0) :=
  ⟨⟨by decide, rfl⟩,
   spec_c7 storeEx "rescue_with_pop.parquet" rescueT rescueT0 false (by decide) rfl⟩

/-- C8 as stated is false on the walkthrough's left join: with left table
holding keys 1 and 2 and right table holding key 1 once, the join keeps
the unmatched left key, so aggregating by the key yields 2 rows, while the
smaller side's distinct key count (1) times the join fan-out (1) is 1. -/
theorem spec_c8_counter :
    ¬ (countTable (groupAggMean (joinLeft joinL joinR "k" "k2") "k" "k2") ≤
        min (distinctCount joinL "k") (distinctCount joinR "k2") *
          fanOut joinL joinR "k" "k2") := by
  with_unfolding_all decide

theorem joinLeft_keys_sub (L R : Table) (lk rk : String)
    (hk : lk ∈ L.schema) (hwf : ∀ r ∈ L.rows, r.length = L.schema.length) :
    ∀ x ∈ keysList (joinLeft L R lk rk) lk, x ∈ keysList L lk := by
  intro x hx
  dsimp only [keysList, joinLeft] at hx ⊢
  simp only [List.mem_map] at hx ⊢
  obtain ⟨row, hrow, hval⟩ := hx
  simp only [List.mem_flatMap] at hrow
  obtain ⟨lr, hlr, hin⟩ := hrow
  have hlen := hwf lr hlr
  have hrt : ∃ t, row = lr ++ t := by
    split at hin
    · simp only [List.mem_singleton] at hin
      exact ⟨_, hin⟩
    · simp only [List.mem_map] at hin
      obtain ⟨rr, -, he⟩ := hin
      exact ⟨rr, he.symm⟩
  obtain ⟨t, ht⟩ := hrt
  subst ht
  refine ⟨lr, hlr, ?_⟩
  rw [← hval]
  exact (getValue_append_of_mem hk hlen).symm

/-- C8, amended: for the left join used by the walkthrough the bound by
the smaller side fails (unmatched left keys are kept), and the correct
bound holds: joining and then aggregating by the key yields at most the
left side's distinct key count many rows. -/
theorem spec_c8 (L R : Table) (lk rk c : String) (hk : lk ∈ L.schema)
    (hwf : ∀ r ∈ L.rows, r.length = L.schema.length) :
    countTable (groupAggMean (joinLeft L R lk rk) lk c) ≤ distinctCount L lk := by
  show ((keysList (joinLeft L R lk rk) lk).dedup.map _).length ≤ distinctCount L lk
  rw [List.length_map]
  exact dedup_length_le_of_subset (joinLeft_keys_sub L R lk rk hk hwf)

theorem spec_c8_witness :
    ("k" ∈ joinL.schema ∧ ∀ r ∈ joinL.rows, r.length = joinL.schema.length) ∧
    countTable (groupAggMean (joinLeft joinL joinR "k" "k2") "k" "k2") ≤
      distinctCount joinL "k" :=
  ⟨⟨by decide, by decide⟩, spec_c8 joinL joinR "k" "k2" "k2" (by decide) (by decide)⟩

/-- C9: deriving the duration column as JobHours over EngineCount appends,
for each input row, a cell that is null whenever JobHours or EngineCount
is null in that row — no error is raised, the evaluation is total — and is
the numeric quotient whenever both operands are numeric. -/
theorem spec_c9 (T : Table) (r : Row) (hr : r ∈ T.rows)
    (hfresh : "IncidentDuration" ∉ T.schema) (hwf : r.length = T.schema.length) :
    (r ++ [evalColExpr T.schema r durExpr]) ∈
      (withColumn "IncidentDuration" durExpr T).rows ∧
    getValue (withColumn "IncidentDuration" durExpr T).schema
      (r ++ [evalColExpr T.schema r durExpr]) "IncidentDuration" =
      some (evalColExpr T.schema r durExpr) ∧
    ((getValue T.schema r "JobHours" = some Value.null ∨
      getValue T.schema r "EngineCount" = some Value.null) →
      evalColExpr T.schema r durExpr = Value.null) ∧
    (∀ a b : ℚ, getValue T.schema r "JobHours" = some (Value.num a) →
      getValue T.schema r "EngineCount" = some (Value.num b) →
      evalColExpr T.schema r durExpr = Value.num (a / b)) := by
  have hw : withColumn "IncidentDuration" durExpr T =
      ⟨T.schema ++ ["IncidentDuration"],
       T.rows.map (fun r => r ++ [evalColExpr T.schema r durExpr])⟩ := by
    unfold withColumn
    rw [if_neg hfresh]
  refine ⟨?_, ?_, ?_, ?_⟩
  · rw [hw]
    exact List.mem_map_of_mem _ hr
  · rw [hw]
    exact getValue_snoc_fresh hfresh hwf
  · intro h
    rcases h with h | h
    · simp [durExpr, evalColExpr, h]
    · cases hv : evalColExpr T.schema r (ColExpr.col "JobHours") <;>
        simp [durExpr, evalColExpr, h, hv] at hv ⊢
  · intro a b ha hb
    simp [durExpr, evalColExpr, ha, hb]

theorem spec_c9_witness :
    ([Value.num 2, Value.num 2011, Value.str "Cat", Value.null, Value.num 1,
       Value.null] ∈ rescueT0.rows ∧
     "IncidentDuration" ∉ rescueT0.schema ∧
     ([Value.num 2, Value.num 2011, Value.str "Cat", Value.null, Value.num 1,
        Value.null] : Row).length = rescueT0.schema.length) ∧
    (([Value.num 2, Value.num 2011, Value.str "Cat", Value.null, Value.num 1,
        Value.null] ++
       [evalColExpr rescueT0.schema
         [Value.num 2, Value.num 2011, Value.str "Cat", Value.null, Value.num 1,
          Value.null] durExpr]) ∈
      (withColumn "IncidentDuration" durExpr rescueT0).rows ∧
     getValue (withColumn "IncidentDuration" durExpr rescueT0).schema
       ([Value.num 2, Value.num 2011, Value.str "Cat", Value.null, Value.num 1,
          Value.null] ++
        [evalColExpr rescueT0.schema
          [Value.num 2, Value.num 2011, Value.str "Cat", Value.null, Value.num 1,
           Value.null] durExpr]) "IncidentDuration" =
       some (evalColExpr rescueT0.schema
         [Value.num 2, Value.num 2011, Value.str "Cat", Value.null, Value.num 1,
          Value.null] durExpr) ∧
     ((getValue rescueT0.schema
         [Value.num 2, Value.num 2011, Value.str "Cat", Value.null, Value.num 1,
          Value.null] "JobHours" = some Value.null ∨
       getValue rescueT0.schema
         [Value.num 2, Value.num 2011, Value.str "Cat", Value.null, Value.num 1,
          Value.null] "EngineCount" = some Value.null) →
       evalColExpr rescueT0.schema
         [Value.num 2, Value.num 2011, Value.str "Cat", Value.null, Value.num 1,
          Value.null] durExpr = Value.null) ∧
     (∀ a b : ℚ,
       getValue rescueT0.schema
         [Value.num 2, Value.num 2011, Value.str "Cat", Value.null, Value.num 1,
          Value.null] "JobHours" = some (Value.num a) →
       getValue rescueT0.schema
         [Value.num 2, Value.num 2011, Value.str "Cat", Value.null, Value.num 1,
          Value.null] "EngineCount" = some (Value.num b) →
       evalColExpr rescueT0.schema
         [Value.num 2, Value.num 2011, Value.str "Cat", Value.null, Value.num 1,
          Value.null] durExpr = Value.num (a / b))) :=
  ⟨⟨by decide, by decide, by decide⟩,
   spec_c9 rescueT0
     [Value.num 2, Value.num 2011, Value.str "Cat", Value.null, Value.num 1, Value.null]
     (by decide) (by decide) (by decide)⟩

/-- C10: deriving the snake flag with when/otherwise appends, for each
input row, a cell that is 1 or 0 and never null; a row whose AnimalGroup
is null falls to the otherwise-branch and receives 0. -/
theorem spec_c10 (T : Table) (r : Row) (hr : r ∈ T.rows)
    (hfresh : "SnakeFlag" ∉ T.schema) (hwf : r.length = T.schema.length) :
    (r ++ [evalColExpr T.schema r snakeExpr]) ∈
      (withColumn "SnakeFlag" snakeExpr T).rows ∧
    getValue (withColumn "SnakeFlag" snakeExpr T).schema
      (r ++ [evalColExpr T.schema r snakeExpr]) "SnakeFlag" =
      some (evalColExpr T.schema r snakeExpr) ∧
    (evalColExpr T.schema r snakeExpr = Value.num 1 ∨
     evalColExpr T.schema r snakeExpr = Value.num 0) ∧
    (getValue T.schema r "AnimalGroup" = some Value.null →
      evalColExpr T.schema r snakeExpr = Value.num 0) := by
  have hw : withColumn "SnakeFlag" snakeExpr T =
      ⟨T.schema ++ ["SnakeFlag"],
       T.rows.map (fun r => r ++ [evalColExpr T.schema r snakeExpr])⟩ := by
    unfold withColumn
    rw [if_neg hfresh]
  refine ⟨?_, ?_, ?_, ?_⟩
  · rw [hw]
    exact List.mem_map_of_mem _ hr
  · rw [hw]
    exact getValue_snoc_fresh hfresh hwf
  · by_cases hc : evalCond T.schema r (Cond.cmp "AnimalGroup" Cmp.eq (Value.str "Snake")) =
        some true
    · left
      simp [snakeExpr, evalColExpr, hc]
    · right
      simp [snakeExpr, evalColExpr, hc]
  · intro h
    have hc : evalCond T.schema r (Cond.cmp "AnimalGroup" Cmp.eq (Value.str "Snake")) =
        none := by
      simp [evalCond, h, cmpValue]
    simp [snakeExpr, evalColExpr, hc]

theorem spec_c10_witness :
    ([Value.num 3, Value.num 2015, Value.null, Value.num 4, Value.null,
       Value.num 520] ∈ rescueT0.rows ∧
     "SnakeFlag" ∉ rescueT0.schema ∧
     ([Value.num 3, Value.num 2015, Value.null, Value.num 4, Value.null,
        Value.num 520] : Row).length = rescueT0.schema.length) ∧
    (([Value.num 3, Value.num 2015, Value.null, Value.num 4, Value.null,
        Value.num 520] ++
       [evalColExpr rescueT0.schema
         [Value.num 3, Value.num 2015, Value.null, Value.num 4, Value.null,
          Value.num 520] snakeExpr]) ∈
      (withColumn "SnakeFlag" snakeExpr rescueT0).rows ∧
     getValue (withColumn "SnakeFlag" snakeExpr rescueT0).schema
       ([Value.num 3, Value.num 2015, Value.null, Value.num 4, Value.null,
          Value.num 520] ++
        [evalColExpr rescueT0.schema
          [Value.num 3, Value.num 2015, Value.null, Value.num 4, Value.null,
           Value.num 520] snakeExpr]) "SnakeFlag" =
       some (evalColExpr rescueT0.schema
         [Value.num 3, Value.num 2015, Value.null, Value.num 4, Value.null,
          Value.num 520] snakeExpr) ∧
     (evalColExpr rescueT0.schema
        [Value.num 3, Value.num 2015, Value.null, Value.num 4, Value.null,
         Value.num 520] snakeExpr = Value.num 1 ∨
      evalColExpr rescueT0.schema
        [Value.num 3, Value.num 2015, Value.null, Value.num 4, Value.null,
         Value.num 520] snakeExpr = Value.num 0) ∧
     (getValue rescueT0.schema
        [Value.num 3, Value.num 2015, Value.null, Value.num 4, Value.null,
         Value.num 520] "AnimalGroup" = some Value.null →
      evalColExpr rescueT0.schema
        [Value.num 3, Value.num 2015, Value.null, Value.num 4, Value.null,
         Value.num 520] snakeExpr = Value.num 0)) :=
  ⟨⟨by decide, by decide, by decide⟩,
   spec_c10 rescueT0
     [Value.num 3, Value.num 2015, Value.null, Value.num 4, Value.null, Value.num 520]
     (by decide) (by decide) (by decide)⟩

end PipelineSpec
